import Mathlib

/-!
Verification of the Steamcodle game-selection and round state machine core.

The definitions below are a shallow embedding of the TypeScript source:
`src/app/page.tsx` (canonical revision: the library with `selectPool`,
`fetchRandomSteamGame`, `normalizeReviewScore`, `isEligibleGame`),
`src/components/steam-game-viewer.tsx` (round state machine), and the
API route handler. JavaScript numbers are modelled as `ℚ` (review data),
`ℕ` (identifiers, counters) or `ℤ` (integral scores); `null`/`undefined`
becomes `Option`; thrown errors become `Except String`; `Math.random`
draws become explicit choice parameters reduced modulo the relevant
length.
-/

namespace Steamcodle

/-- `SteamGame` record, from `src/app/page.tsx` (`export type SteamGame`). -/
structure SteamGame where
  appId : ℕ
  type : String
  name : String
  headerImage : String
  shortDescription : String
  reviewScore : Option ℚ
  reviewSummary : Option String
  positive : Option ℕ
  negative : Option ℕ
  totalReviews : Option ℕ
  genres : List String
  deriving DecidableEq, Repr

/-- `MIN_TOTAL_REVIEWS = 100` from `src/app/page.tsx`. -/
def MIN_TOTAL_REVIEWS : ℕ := 100

/-- `MAX_TOTAL_ATTEMPTS = 50` from `src/app/page.tsx`. -/
def MAX_TOTAL_ATTEMPTS : ℕ := 50

/-- JavaScript `Math.round` on a finite number: floor of `x + 1/2`
(ties round toward positive infinity). -/
def jsRound (q : ℚ) : ℤ := ⌊q + 1/2⌋

/-- The fallback branch of `normalizeReviewScore`: the code reached when
the `positive`/`total` pair is unusable.  From `src/app/page.tsx`:
`if (typeof fallbackScore === "number") { if (fallbackScore <= 10)
return fallbackScore * 10; return fallbackScore; } return null;`. -/
def normalizeFallback (fallbackScore : Option ℚ) : Option ℚ :=
  match fallbackScore with
  | some f => if f ≤ 10 then some (f * 10) else some f
  | none => none

/-- `normalizeReviewScore` from `src/app/page.tsx`.  The first branch fires
when both `positive` and `total` are numbers and `total > 0`; otherwise
control falls through to the `fallbackScore` logic. -/
def normalizeReviewScore (positive total fallbackScore : Option ℚ) :
    Option ℚ :=
  match positive, total with
  | some p, some t =>
    if 0 < t then some ((jsRound (p / t * 100) : ℤ) : ℚ)
    else normalizeFallback fallbackScore
  | _, _ => normalizeFallback fallbackScore

/-- JavaScript `String.prototype.toLowerCase`, modelled character-wise
(sufficient for the ASCII kind strings the upstream API provides). -/
def jsToLower (s : String) : String := ⟨s.data.map Char.toLower⟩

/-- `isEligibleGame` from `src/app/page.tsx`:
`game.type.toLowerCase() === "game" && (game.totalReviews ?? 0) >= MIN_TOTAL_REVIEWS`. -/
def isEligibleGame (game : SteamGame) : Bool :=
  (jsToLower game.type == "game") &&
    (MIN_TOTAL_REVIEWS ≤ game.totalReviews.getD 0)

/-- Embed an optional non-negative integer count as an optional JS number. -/
def liftNat (o : Option ℕ) : Option ℚ := o.map (fun n => (n : ℚ))

/-- Embed an optional integral score as an optional JS number. -/
def liftInt (o : Option ℤ) : Option ℚ := o.map (fun z => (z : ℚ))

/-- `filterIds` from `src/app/page.tsx`: drop every excluded identifier. -/
def filterIds (source : List ℕ) (exclude : List ℕ) : List ℕ :=
  source.filter (fun id => !exclude.contains id)

/-- The `candidatePools` array built by `selectPool` in `src/app/page.tsx`:
for each non-empty catalog whose exclusion-filtered pool is non-empty,
one `{pool, filtered: true}` entry (full catalog first, featured second). -/
def candidatePools (featuredIds allIds exclude : List ℕ) :
    List (List ℕ × Bool) :=
  (if 0 < allIds.length then
    (let pool := filterIds allIds exclude
     if 0 < pool.length then [(pool, true)] else [])
   else []) ++
  (if 0 < featuredIds.length then
    (let pool := filterIds featuredIds exclude
     if 0 < pool.length then [(pool, true)] else [])
   else [])

/-- The `fallbackPools` array built by `selectPool` in `src/app/page.tsx`:
one unfiltered `{pool, filtered: false}` entry per non-empty catalog. -/
def fallbackPools (featuredIds allIds : List ℕ) : List (List ℕ × Bool) :=
  (if 0 < allIds.length then [(allIds, false)] else []) ++
  (if 0 < featuredIds.length then [(featuredIds, false)] else [])

/-- `selectPool` from `src/app/page.tsx`.  The uniform `Math.random` pool
choice is modelled by the `choice` parameter taken modulo the number of
available pools. -/
def selectPool (featuredIds allIds exclude : List ℕ) (choice : ℕ) :
    Option (List ℕ × Bool) :=
  if 0 < (candidatePools featuredIds allIds exclude).length then
    (candidatePools featuredIds allIds exclude)[choice %
      (candidatePools featuredIds allIds exclude).length]?
  else if (fallbackPools featuredIds allIds).length = 0 then
    none
  else
    (fallbackPools featuredIds allIds)[choice %
      (fallbackPools featuredIds allIds).length]?

/-- Outcome of one iteration of the retry loop in `fetchRandomSteamGame`. -/
inductive AttemptOutcome where
  | exit
  | success (game : SteamGame)
  | skip
  | failed (msg : String)
  deriving DecidableEq, Repr

/-- One iteration of the `for` loop body of `fetchRandomSteamGame` from
`src/app/page.tsx`.  `oracle` models `fetchSteamGame` (the concurrent
detail + review fetch for one identifier, which either yields a resolved
game or throws); `poolChoice`/`idxChoice` model the two `Math.random`
draws, indexed by the attempt counter.  `.exit` is the loop `break` when
no pool is available, `.skip` a `continue`, `.failed` records the thrown
error as the new last error. -/
def attemptStep (oracle : ℕ → Except String SteamGame)
    (featuredIds allIds : List ℕ) (poolChoice idxChoice : ℕ → ℕ)
    (attempt : ℕ) (excludeSet : List ℕ) : AttemptOutcome :=
  match selectPool featuredIds allIds excludeSet (poolChoice attempt) with
  | none => .exit
  | some (pool, filtered) =>
    if pool.length = 0 then .exit
    else
      match pool[idxChoice attempt % pool.length]? with
      | none => .skip
      | some appId =>
        if filtered && excludeSet.contains appId then .skip
        else
          match oracle appId with
          | .ok game => if isEligibleGame game then .success game else .skip
          | .error e => .failed e

/-- The post-loop behaviour of `fetchRandomSteamGame`: rethrow the last
recorded error if there is one, else throw the generic error. -/
def throwLast (lastError : Option String) : Except String SteamGame :=
  match lastError with
  | some e => .error e
  | none => .error "No eligible Steam games available at the moment."

/-- The attempt loop of `fetchRandomSteamGame` from `src/app/page.tsx`,
recursing on the number of remaining attempts.  The exclusion set never
changes during the loop: the code only adds to it immediately before
returning the successful game. -/
def fetchRandomLoop (oracle : ℕ → Except String SteamGame)
    (featuredIds allIds : List ℕ) (poolChoice idxChoice : ℕ → ℕ)
    (attempt remaining : ℕ) (excludeSet : List ℕ)
    (lastError : Option String) : Except String SteamGame :=
  match remaining with
  | 0 => throwLast lastError
  | r + 1 =>
    match attemptStep oracle featuredIds allIds poolChoice idxChoice attempt
        excludeSet with
    | .exit => throwLast lastError
    | .success game => .ok game
    | .skip =>
      fetchRandomLoop oracle featuredIds allIds poolChoice idxChoice
        (attempt + 1) r excludeSet lastError
    | .failed e =>
      fetchRandomLoop oracle featuredIds allIds poolChoice idxChoice
        (attempt + 1) r excludeSet (some e)

/-- Ghost instrumentation of `fetchRandomLoop`: the chronological list of
fetch error messages recorded during the run (head = earliest). -/
def fetchRandomLoopErrors (oracle : ℕ → Except String SteamGame)
    (featuredIds allIds : List ℕ) (poolChoice idxChoice : ℕ → ℕ)
    (attempt remaining : ℕ) (excludeSet : List ℕ) : List String :=
  match remaining with
  | 0 => []
  | r + 1 =>
    match attemptStep oracle featuredIds allIds poolChoice idxChoice attempt
        excludeSet with
    | .exit => []
    | .success _ => []
    | .skip =>
      fetchRandomLoopErrors oracle featuredIds allIds poolChoice idxChoice
        (attempt + 1) r excludeSet
    | .failed e =>
      e :: fetchRandomLoopErrors oracle featuredIds allIds poolChoice idxChoice
        (attempt + 1) r excludeSet

/-- `fetchRandomSteamGame` from `src/app/page.tsx`: build the exclusion
set from the caller-supplied excludes and the recent-history ring
(membership in the concatenation models the JS `Set`), then run up to
`MAX_TOTAL_ATTEMPTS` attempts with no error recorded yet. -/
def fetchRandomSteamGame (oracle : ℕ → Except String SteamGame)
    (featuredIds allIds : List ℕ) (poolChoice idxChoice : ℕ → ℕ)
    (excludeIds recentHistory : List ℕ) : Except String SteamGame :=
  fetchRandomLoop oracle featuredIds allIds poolChoice idxChoice 0
    MAX_TOTAL_ATTEMPTS (excludeIds ++ recentHistory) none

/-- Error messages recorded during a full `fetchRandomSteamGame` run. -/
def fetchErrors (oracle : ℕ → Except String SteamGame)
    (featuredIds allIds : List ℕ) (poolChoice idxChoice : ℕ → ℕ)
    (excludeIds recentHistory : List ℕ) : List String :=
  fetchRandomLoopErrors oracle featuredIds allIds poolChoice idxChoice 0
    MAX_TOTAL_ATTEMPTS (excludeIds ++ recentHistory)

/-- Oracle for the C5 witness: no identifier is ever drawn. -/
def oracleNone : ℕ → Except String SteamGame :=
  fun _ => Except.error "unreachable"

/-- Constant-zero random choice stream for the C5 witness. -/
def zeroChoice : ℕ → ℕ := fun _ => 0

/-- Witness game for C1: a base game with exactly 100 total reviews. -/
def witnessGame : SteamGame :=
  { appId := 620
    type := "game"
    name := "Sample"
    headerImage := ""
    shortDescription := ""
    reviewScore := some 95
    reviewSummary := some "Overwhelmingly Positive"
    positive := some 95
    negative := some 5
    totalReviews := some 100
    genres := ["Puzzle"] }

/-- `StatsSnapshot` from `src/components/steam-game-viewer.tsx`. -/
structure StatsSnapshot where
  totalGuesses : ℕ
  correctGames : ℕ
  incorrectGames : ℕ
  currentStreak : ℕ
  bestStreak : ℕ
  lastPlayedDate : String
  lossesToday : ℕ
  deriving DecidableEq, Repr

/-- `DAILY_LOSS_LIMIT = 3` from `src/components/steam-game-viewer.tsx`. -/
def DAILY_LOSS_LIMIT : ℕ := 3

/-- The fixed message shown when the daily loss limit blocks a round. -/
def DAILY_LIMIT_MESSAGE : String :=
  "Daily loss limit reached. Come back tomorrow."

/-- `normalizeStats` from `src/components/steam-game-viewer.tsx`:
reset the day-scoped loss counter (and stamp the date) when the stored
date differs from today.  `getToday()` is modelled by the `today`
parameter; the `Number.isFinite` guard is vacuous for `ℕ` counters. -/
def normalizeStats (today : String) (stats : StatsSnapshot) : StatsSnapshot :=
  if stats.lastPlayedDate = today then stats
  else { stats with lastPlayedDate := today, lossesToday := 0 }

/-- Round outcome handed to `finalizeGame`. -/
inductive GameResult where
  | win
  | loss
  deriving DecidableEq, Repr

/-- The stats update performed inside `finalizeGame`'s `setStats` callback
in `src/components/steam-game-viewer.tsx`. -/
def updateStats (today : String) (result : GameResult)
    (prev : StatsSnapshot) : StatsSnapshot :=
  let normalized := normalizeStats today prev
  let updated : StatsSnapshot :=
    { normalized with
      lastPlayedDate := today,
      lossesToday :=
        if result = .loss then normalized.lossesToday + 1
        else normalized.lossesToday }
  if result = .win then
    { updated with
      correctGames := updated.correctGames + 1,
      currentStreak := updated.currentStreak + 1,
      bestStreak := max updated.bestStreak (updated.currentStreak + 1) }
  else
    { updated with
      incorrectGames := updated.incorrectGames + 1,
      currentStreak := 0 }

/-- The discriminated `SteamGameState` union from the viewer component. -/
inductive SteamGameState where
  | idle (game : SteamGame)
  | loading (game : Option SteamGame)
  | error (game : Option SteamGame) (message : String)
  deriving DecidableEq, Repr

/-- `state.game` of the viewer state union. -/
def stateGame : SteamGameState → Option SteamGame
  | .idle g => some g
  | .loading g => g
  | .error g _ => g

/-- The React state of `SteamGameViewer` relevant to round resolution
(the input box, stats-panel toggle and ref mirrors of `recentAppIds`
carry no resolution logic and are omitted). -/
structure ViewerState where
  state : SteamGameState
  guesses : List ℚ
  didWin : Bool
  gameResolved : Bool
  gameResolvedRef : Bool
  stats : StatsSnapshot
  statsLoaded : Bool
  recentAppIds : List ℕ
  deriving DecidableEq, Repr

/-- `finalizeGame` from `src/components/steam-game-viewer.tsx`: latched on
`gameResolvedRef` before any flag or counter is touched. -/
def finalizeGame (today : String) (result : GameResult)
    (v : ViewerState) : ViewerState :=
  if v.gameResolvedRef then v
  else
    { v with
      gameResolvedRef := true,
      gameResolved := true,
      stats := updateStats today result v.stats }

/-- `dailyLossLimitReached` from the component render scope:
`!isDevMode && stats.lossesToday >= DAILY_LOSS_LIMIT`. -/
def dailyLossLimitReached (isDevMode : Bool) (stats : StatsSnapshot) : Bool :=
  !isDevMode && decide (DAILY_LOSS_LIMIT ≤ stats.lossesToday)

/-- The synchronous prefix of `fetchGame` from
`src/components/steam-game-viewer.tsx`: do nothing while stats are not
yet loaded, short-circuit to the error state (keeping the previous game,
issuing no request) when the captured `dailyLossLimitReached` holds, else
enter `loading` and issue the request whose exclude parameter is the 15
most recent identifiers.  The asynchronous response handling is not
needed by the claims and is not modelled. -/
def fetchGameStep (limitReached : Bool) (v : ViewerState) :
    ViewerState × Option (List ℕ) :=
  if v.statsLoaded = false then (v, none)
  else if limitReached then
    ({ v with state := .error (stateGame v.state) DAILY_LIMIT_MESSAGE }, none)
  else
    ({ v with state := .loading (stateGame v.state) },
      some (v.recentAppIds.take 15))

/-- `fetchGame` as invoked from a fresh render: the captured
`dailyLossLimitReached` is computed from the current stats. -/
def fetchGame (isDevMode : Bool) (v : ViewerState) :
    ViewerState × Option (List ℕ) :=
  fetchGameStep (dailyLossLimitReached isDevMode v.stats) v

/-- The guard `state.status === "idle" && state.game && !gameResolved`
of `handleNewGame`. -/
def isActiveUnresolved (v : ViewerState) : Bool :=
  match v.state with
  | .idle _ => !v.gameResolved
  | _ => false

/-- `handleNewGame` from `src/components/steam-game-viewer.tsx`:
synthesize a loss for an active unresolved round, then fetch.  The
`dailyLossLimitReached` value seen by the inner `fetchGame` call is the
render-scope capture, i.e. computed from the pre-call stats. -/
def handleNewGame (today : String) (isDevMode : Bool) (v : ViewerState) :
    ViewerState × Option (List ℕ) :=
  let limitReached := dailyLossLimitReached isDevMode v.stats
  if v.statsLoaded = false then (v, none)
  else
    let v1 := if isActiveUnresolved v then finalizeGame today .loss v else v
    fetchGameStep limitReached v1

/-- JSON body of a round-fetch endpoint response. -/
inductive RouteBody where
  | game (g : SteamGame)
  | error (message : String)
  deriving DecidableEq, Repr

/-- The `GET` handler of the round-fetch endpoint (the API route source
file).  The handler receives the request — whose query string carries the
caller's comma-separated `exclude` list, modelled by `queryExclude` — but
never reads it: it calls `fetchRandomSteamGame()` with no arguments, so
the caller-supplied exclusion set defaults to `[]` and only the
server-side recent history applies.  A thrown error maps to a
`{ error }` body with HTTP 502, success to the game body with 200. -/
def routeGET (oracle : ℕ → Except String SteamGame)
    (featuredIds allIds : List ℕ) (poolChoice idxChoice : ℕ → ℕ)
    (serverRecentHistory : List ℕ) (queryExclude : List ℕ) :
    ℕ × RouteBody :=
  match fetchRandomSteamGame oracle featuredIds allIds poolChoice idxChoice
      [] serverRecentHistory with
  | .ok game => (200, .game game)
  | .error msg => (502, .error msg)

/-- A resolved, eligible title with identifier 5, for the C9 scenario. -/
def eligibleGame5 : SteamGame :=
  { appId := 5
    type := "game"
    name := "Five"
    headerImage := ""
    shortDescription := ""
    reviewScore := some 80
    reviewSummary := some "Very Positive"
    positive := some 120
    negative := some 30
    totalReviews := some 150
    genres := [] }

/-- Oracle for the C9 scenario: identifier 5 resolves to `eligibleGame5`. -/
def oracle5 : ℕ → Except String SteamGame :=
  fun id => if id = 5 then .ok eligibleGame5 else .error "no store data"

/-- Stats shared by the viewer-state witnesses. -/
def baseStats : StatsSnapshot :=
  { totalGuesses := 7
    correctGames := 2
    incorrectGames := 1
    currentStreak := 2
    bestStreak := 3
    lastPlayedDate := "2024-01-01"
    lossesToday := 1 }

/-- An active, unresolved round (witness input for C8). -/
def activeViewer : ViewerState :=
  { state := .idle witnessGame
    guesses := [50]
    didWin := false
    gameResolved := false
    gameResolvedRef := false
    stats := baseStats
    statsLoaded := true
    recentAppIds := [620] }

/-- An already-resolved round (witness input for C6). -/
def resolvedViewer : ViewerState :=
  { activeViewer with gameResolved := true, gameResolvedRef := true }

/-- A viewer whose daily loss counter sits at the cap (witness for C7). -/
def limitViewer : ViewerState :=
  { activeViewer with stats := { baseStats with lossesToday := 3 } }

/-- A viewer carrying yesterday's loss counter (C10 counterexample). -/
def staleViewer : ViewerState :=
  { activeViewer with stats := { baseStats with lossesToday := 2 } }

end Steamcodle

namespace Steamcodle

/-- Whenever `a ≤ b` and `0 < b`, rounding `a / b * 100` lands in `[0, 100]`. -/
theorem jsRound_div_mul_bounds (a b : ℕ) (hab : a ≤ b) (hb : 0 < b) :
    0 ≤ jsRound ((a : ℚ) / (b : ℚ) * 100) ∧
      jsRound ((a : ℚ) / (b : ℚ) * 100) ≤ 100 := by
  have hb' : (0 : ℚ) < (b : ℚ) := by exact_mod_cast hb
  have hq0 : (0 : ℚ) ≤ (a : ℚ) / (b : ℚ) * 100 := by positivity
  have hq1 : (a : ℚ) / (b : ℚ) ≤ 1 :=
    (div_le_one hb').mpr (by exact_mod_cast hab)
  have hq100 : (a : ℚ) / (b : ℚ) * 100 ≤ 100 := by nlinarith
  constructor
  · apply Int.le_floor.mpr
    push_cast
    linarith
  · have hfl : (⌊(a : ℚ) / (b : ℚ) * 100 + 1/2⌋ : ℚ) ≤
        (a : ℚ) / (b : ℚ) * 100 + 1/2 := Int.floor_le _
    have hlt : (⌊(a : ℚ) / (b : ℚ) * 100 + 1/2⌋ : ℚ) < 101 := by linarith
    have : ⌊(a : ℚ) / (b : ℚ) * 100 + 1/2⌋ < 101 := by exact_mod_cast hlt
    unfold jsRound
    omega

/-- Claim C1: eligibility of a resolved title is exactly
`kind == "game"` (case-insensitively) together with a present total
review count of at least 100; a `"DLC"` title is never eligible, a
`"game"` with 99 total reviews is ineligible, 100 total reviews is
eligible, and an absent total review count is ineligible. -/
theorem isEligibleGame_iff (g : SteamGame) :
    (isEligibleGame g = true ↔
      (jsToLower g.type = "game" ∧ ∃ n, g.totalReviews = some n ∧ 100 ≤ n)) ∧
    (g.type = "DLC" → isEligibleGame g = false) ∧
    (g.type = "game" → g.totalReviews = some 99 → isEligibleGame g = false) ∧
    (g.type = "game" → g.totalReviews = some 100 → isEligibleGame g = true) ∧
    (g.totalReviews = none → isEligibleGame g = false) := by
  refine ⟨?_, ?_, ?_, ?_, ?_⟩
  · simp only [isEligibleGame, MIN_TOTAL_REVIEWS, Bool.and_eq_true, beq_iff_eq,
      decide_eq_true_eq]
    cases h : g.totalReviews with
    | none => simp
    | some n => simp
  · intro h
    unfold isEligibleGame
    rw [h]
    have hlow : (jsToLower "DLC" == "game") = false := by decide
    rw [hlow]
    simp
  · intro ht hn
    unfold isEligibleGame MIN_TOTAL_REVIEWS
    rw [ht, hn]
    decide
  · intro ht hn
    unfold isEligibleGame MIN_TOTAL_REVIEWS
    rw [ht, hn]
    decide
  · intro h
    unfold isEligibleGame MIN_TOTAL_REVIEWS
    rw [h]
    simp

/-- Witness for C1 at the boundary title with 100 total reviews. -/
theorem isEligibleGame_iff_witness :
    witnessGame.type = "game" ∧ witnessGame.totalReviews = some 100 ∧
      isEligibleGame witnessGame = true :=
  ⟨rfl, rfl, (isEligibleGame_iff witnessGame).2.2.2.1 rfl rfl⟩

/-- Claim C2: for `positive ≤ total` and `total > 0` the normalizer
returns `round(positive / total * 100)` — an integer in `[0, 100]` —
for every value of the fallback argument. -/
theorem normalizeReviewScore_ratio (p t : ℕ) (fb : Option ℚ)
    (hpt : p ≤ t) (ht : 0 < t) :
    normalizeReviewScore (some ((p : ℕ) : ℚ)) (some ((t : ℕ) : ℚ)) fb
        = some ((jsRound (((p : ℕ) : ℚ) / ((t : ℕ) : ℚ) * 100) : ℤ) : ℚ) ∧
      0 ≤ jsRound (((p : ℕ) : ℚ) / ((t : ℕ) : ℚ) * 100) ∧
      jsRound (((p : ℕ) : ℚ) / ((t : ℕ) : ℚ) * 100) ≤ 100 := by
  have ht' : (0 : ℚ) < ((t : ℕ) : ℚ) := by exact_mod_cast ht
  refine ⟨?_, jsRound_div_mul_bounds p t hpt ht⟩
  simp [normalizeReviewScore, ht']

/-- Witness for C2 at `positive = 1`, `total = 3`, with an (ignored)
fallback score of 42. -/
theorem normalizeReviewScore_ratio_witness :
    (1 : ℕ) ≤ 3 ∧
      normalizeReviewScore (some ((1 : ℕ) : ℚ)) (some ((3 : ℕ) : ℚ)) (some 42)
        = some ((jsRound (((1 : ℕ) : ℚ) / ((3 : ℕ) : ℚ) * 100) : ℤ) : ℚ) :=
  ⟨by norm_num,
    (normalizeReviewScore_ratio 1 3 (some 42) (by norm_num) (by norm_num)).1⟩

/-- Counterexample to C3 as stated: with no usable `positive`/`total`
and a fallback score of 150 (a perfectly good "number"), the normalizer
returns 150 as-is, which does not lie in `[0, 100]`. -/
theorem normalizeReviewScore_range_counterexample :
    normalizeReviewScore none none (some 150) = some 150 ∧
      ¬ (150 : ℚ) ≤ 100 := by
  constructor
  · norm_num [normalizeReviewScore, normalizeFallback]
  · norm_num

/-- Claim C3, amended: restricted to the data-model domain — `positive`
and `total` optional non-negative integers with `positive ≤ total`
whenever both are present with `total > 0`, and an integral fallback
score in `[0, 100]` — the normalizer returns either `none` or an integer
in `[0, 100]`; and whenever the `positive`/`total` pair is unusable and a
fallback score is present, a fallback `≤ 10` is scaled by 10 and any
other fallback is returned as-is. -/
theorem normalizeReviewScore_range (p t : Option ℕ) (fb : Option ℤ)
    (hpt : ∀ a b, p = some a → t = some b → 0 < b → a ≤ b)
    (hfb : ∀ f, fb = some f → 0 ≤ f ∧ f ≤ 100) :
    (normalizeReviewScore (liftNat p) (liftNat t) (liftInt fb) = none ∨
      ∃ k : ℤ, 0 ≤ k ∧ k ≤ 100 ∧
        normalizeReviewScore (liftNat p) (liftNat t) (liftInt fb)
          = some ((k : ℤ) : ℚ)) ∧
    (∀ f : ℤ, fb = some f → (p = none ∨ t = none ∨ t = some 0) →
      normalizeReviewScore (liftNat p) (liftNat t) (liftInt fb)
        = (if ((f : ℤ) : ℚ) ≤ 10 then some (((f : ℤ) : ℚ) * 10)
           else some (((f : ℤ) : ℚ)))) := by
  have fallback_range :
      normalizeFallback (liftInt fb) = none ∨
        ∃ k : ℤ, 0 ≤ k ∧ k ≤ 100 ∧
          normalizeFallback (liftInt fb) = some ((k : ℤ) : ℚ) := by
    cases fb with
    | none => exact Or.inl rfl
    | some f =>
      obtain ⟨hf0, hf100⟩ := hfb f rfl
      by_cases hle : ((f : ℤ) : ℚ) ≤ 10
      · refine Or.inr ⟨f * 10, by linarith, ?_, ?_⟩
        · have : f ≤ 10 := by exact_mod_cast hle
          linarith
        · have hli : liftInt (some f) = some ((f : ℤ) : ℚ) := rfl
          rw [hli]
          simp only [normalizeFallback, if_pos hle]
          congr 1
          push_cast
          ring
      · refine Or.inr ⟨f, hf0, hf100, ?_⟩
        have hli : liftInt (some f) = some ((f : ℤ) : ℚ) := rfl
        rw [hli]
        simp only [normalizeFallback, if_neg hle]
  constructor
  · cases hp : p with
    | none =>
      simpa [normalizeReviewScore, liftNat] using fallback_range
    | some a =>
      cases ht : t with
      | none =>
        simpa [normalizeReviewScore, liftNat] using fallback_range
      | some b =>
        by_cases hb : 0 < b
        · have hab : a ≤ b := hpt a b hp ht hb
          have hb' : (0 : ℚ) < ((b : ℕ) : ℚ) := by exact_mod_cast hb
          obtain ⟨h0, h100⟩ := jsRound_div_mul_bounds a b hab hb
          refine Or.inr ⟨jsRound (((a : ℕ) : ℚ) / ((b : ℕ) : ℚ) * 100),
            h0, h100, ?_⟩
          simp [normalizeReviewScore, liftNat, hb']
        · have hb0 : b = 0 := by omega
          subst hb0
          have : ¬ (0 : ℚ) < ((0 : ℕ) : ℚ) := by norm_num
          simpa [normalizeReviewScore, liftNat, this] using fallback_range
  · rintro f rfl hcase
    rcases hcase with hp | ht | ht
    · subst hp
      simp [normalizeReviewScore, liftNat, liftInt, normalizeFallback]
    · subst ht
      cases p <;>
        simp [normalizeReviewScore, liftNat, liftInt, normalizeFallback]
    · subst ht
      cases p with
      | none =>
        simp [normalizeReviewScore, liftNat, liftInt, normalizeFallback]
      | some a =>
        have : ¬ (0 : ℚ) < ((0 : ℕ) : ℚ) := by norm_num
        simp [normalizeReviewScore, liftNat, liftInt, this, normalizeFallback]

/-- Indexing a non-empty list at an index reduced modulo its length
always succeeds. -/
theorem getElem?_mod_isSome {α : Type} (l : List α) (c : ℕ) (h : l ≠ []) :
    (l[c % l.length]?).isSome = true := by
  have hl : 0 < l.length := List.length_pos.mpr h
  have hlt : c % l.length < l.length := Nat.mod_lt _ hl
  simp [List.getElem?_eq_getElem hlt]

/-- Claim C4: with both catalogs non-empty and an exclusion set covering
every identifier of both, `selectPool` falls back to one of the raw
unfiltered pools (marked `filtered := false`) instead of aborting; and
`selectPool` returns `none` exactly when both catalogs are empty. -/
theorem selectPool_fallback (featuredIds allIds exclude : List ℕ)
    (choice : ℕ) (hf : featuredIds ≠ []) (ha : allIds ≠ [])
    (hef : ∀ id ∈ featuredIds, id ∈ exclude)
    (hea : ∀ id ∈ allIds, id ∈ exclude) :
    (selectPool featuredIds allIds exclude choice = some (allIds, false) ∨
      selectPool featuredIds allIds exclude choice
        = some (featuredIds, false)) ∧
    (∀ f a e c, selectPool f a e c = none ↔ f = [] ∧ a = []) := by
  constructor
  · have hfa : filterIds allIds exclude = [] := by
      simp only [filterIds, List.filter_eq_nil_iff]
      intro id hid
      simpa using hea id hid
    have hff : filterIds featuredIds exclude = [] := by
      simp only [filterIds, List.filter_eq_nil_iff]
      intro id hid
      simpa using hef id hid
    have hcand : candidatePools featuredIds allIds exclude = [] := by
      simp [candidatePools, hfa, hff]
    have hfb : fallbackPools featuredIds allIds
        = [(allIds, false), (featuredIds, false)] := by
      simp [fallbackPools, List.length_pos.mpr hf, List.length_pos.mpr ha]
    unfold selectPool
    rw [hcand, hfb]
    simp only [List.length_nil, List.length_cons, Nat.lt_irrefl, if_false]
    rcases Nat.mod_two_eq_zero_or_one choice with hm | hm <;>
      simp [hm]
  · intro f a e c
    constructor
    · intro hnone
      unfold selectPool at hnone
      by_cases hc : 0 < (candidatePools f a e).length
      · rw [if_pos hc] at hnone
        have hne : candidatePools f a e ≠ [] := by
          intro hcontra
          rw [hcontra] at hc
          simp at hc
        have := getElem?_mod_isSome (candidatePools f a e) c hne
        rw [hnone] at this
        simp at this
      · rw [if_neg hc] at hnone
        by_cases hfb : (fallbackPools f a).length = 0
        · unfold fallbackPools at hfb
          rw [List.length_append] at hfb
          have ha0 : a.length = 0 := by
            by_cases h1 : 0 < a.length
            · rw [if_pos h1] at hfb
              simp at hfb
            · omega
          have hf0 : f.length = 0 := by
            by_cases h2 : 0 < f.length
            · rw [if_pos h2] at hfb
              simp at hfb
            · omega
          exact ⟨List.length_eq_zero.mp hf0, List.length_eq_zero.mp ha0⟩
        · rw [if_neg hfb] at hnone
          have hne : fallbackPools f a ≠ [] := by
            intro hcontra
            rw [hcontra] at hfb
            simp at hfb
          have := getElem?_mod_isSome (fallbackPools f a) c hne
          rw [hnone] at this
          simp at this
    · rintro ⟨rfl, rfl⟩
      rfl

/-- Witness for C4: catalogs `[1]` and `[2]` with every identifier
excluded still yield an unfiltered pool. -/
theorem selectPool_fallback_witness :
    selectPool [1] [2] [1, 2] 0 = some ([2], false) ∨
      selectPool [1] [2] [1, 2] 0 = some ([1], false) :=
  (selectPool_fallback [1] [2] [1, 2] 0 (by decide) (by decide)
    (by decide) (by decide)).1

/-- Witness for C3 (amended) at `positive = 50`, `total = 100`, no
fallback score. -/
theorem normalizeReviewScore_range_witness :
    normalizeReviewScore (liftNat (some 50)) (liftNat (some 100))
        (liftInt none) = none ∨
      ∃ k : ℤ, 0 ≤ k ∧ k ≤ 100 ∧
        normalizeReviewScore (liftNat (some 50)) (liftNat (some 100))
          (liftInt none) = some ((k : ℤ) : ℚ) :=
  (normalizeReviewScore_range (some 50) (some 100) none
    (by intro a b ha hb hb0; cases ha; cases hb; norm_num)
    (by intro f h; cases h)).1

/-- A `.success` outcome of the attempt loop body always carries an
eligible game: the code returns only after the eligibility check. -/
theorem attemptStep_success_eligible (oracle : ℕ → Except String SteamGame)
    (featuredIds allIds : List ℕ) (poolChoice idxChoice : ℕ → ℕ)
    (attempt : ℕ) (excludeSet : List ℕ) (g : SteamGame)
    (h : attemptStep oracle featuredIds allIds poolChoice idxChoice attempt
      excludeSet = .success g) :
    isEligibleGame g = true := by
  unfold attemptStep at h
  rcases hsel : selectPool featuredIds allIds excludeSet (poolChoice attempt)
    with _ | ⟨pool, filtered⟩ <;> rw [hsel] at h
  · cases h
  · dsimp only at h
    by_cases hlen : pool.length = 0
    · rw [if_pos hlen] at h
      cases h
    · rw [if_neg hlen] at h
      rcases hidx : pool[idxChoice attempt % pool.length]? with _ | appId <;>
        rw [hidx] at h
      · cases h
      · dsimp only at h
        by_cases hexc : (filtered && excludeSet.contains appId) = true
        · rw [if_pos hexc] at h
          cases h
        · rw [if_neg hexc] at h
          rcases horc : oracle appId with e | game <;> rw [horc] at h
          · cases h
          · dsimp only at h
            by_cases helig : isEligibleGame game = true
            · rw [if_pos helig] at h
              cases h
              exact helig
            · rw [if_neg helig] at h
              cases h

/-- Invariant of the attempt loop: a returned game is eligible, and an
error result is the generic/last-recorded error when the run recorded no
fetch error, and the most recently recorded one otherwise. -/
theorem fetchRandomLoop_spec (oracle : ℕ → Except String SteamGame)
    (featuredIds allIds : List ℕ) (poolChoice idxChoice : ℕ → ℕ) :
    ∀ remaining attempt excludeSet lastError,
      (∀ g, fetchRandomLoop oracle featuredIds allIds poolChoice idxChoice
          attempt remaining excludeSet lastError = .ok g →
        isEligibleGame g = true) ∧
      (∀ m, fetchRandomLoop oracle featuredIds allIds poolChoice idxChoice
          attempt remaining excludeSet lastError = .error m →
        (fetchRandomLoopErrors oracle featuredIds allIds poolChoice idxChoice
            attempt remaining excludeSet = [] ∧
          throwLast lastError = .error m) ∨
        (fetchRandomLoopErrors oracle featuredIds allIds poolChoice idxChoice
            attempt remaining excludeSet).getLast? = some m) := by
  intro remaining
  induction remaining with
  | zero =>
    intro attempt excl le
    constructor
    · intro g hg
      cases le <;> simp [fetchRandomLoop, throwLast] at hg
    · intro m hm
      exact Or.inl ⟨rfl, hm⟩
  | succ r ih =>
    intro attempt excl le
    constructor
    · intro g hg
      unfold fetchRandomLoop at hg
      cases hstep : attemptStep oracle featuredIds allIds poolChoice idxChoice
          attempt excl with
      | exit =>
        rw [hstep] at hg
        cases le <;> simp [throwLast] at hg
      | success game =>
        rw [hstep] at hg
        cases hg
        exact attemptStep_success_eligible oracle featuredIds allIds poolChoice
          idxChoice attempt excl g hstep
      | skip =>
        rw [hstep] at hg
        exact (ih (attempt + 1) excl le).1 g hg
      | failed e =>
        rw [hstep] at hg
        exact (ih (attempt + 1) excl (some e)).1 g hg
    · intro m hm
      unfold fetchRandomLoop at hm
      unfold fetchRandomLoopErrors
      cases hstep : attemptStep oracle featuredIds allIds poolChoice idxChoice
          attempt excl with
      | exit =>
        rw [hstep] at hm
        exact Or.inl ⟨rfl, hm⟩
      | success game =>
        rw [hstep] at hm
        cases hm
      | skip =>
        rw [hstep] at hm
        exact (ih (attempt + 1) excl le).2 m hm
      | failed e =>
        rw [hstep] at hm
        rcases (ih (attempt + 1) excl (some e)).2 m hm with ⟨herrs, hthrow⟩ | hlast
        · rw [herrs]
          refine Or.inr ?_
          simp only [throwLast, Except.error.injEq] at hthrow
          simp [hthrow]
        · refine Or.inr ?_
          cases herrs : fetchRandomLoopErrors oracle featuredIds allIds
              poolChoice idxChoice (attempt + 1) r excl with
          | nil =>
            rw [herrs] at hlast
            simp at hlast
          | cons y ys =>
            rw [herrs] at hlast
            rw [List.getLast?_cons_cons]
            exact hlast

/-- Claim C5: when `fetchRandomSteamGame` ends a run without returning a
candidate (attempt budget or pools exhausted), it throws the most
recently recorded per-candidate fetch error if at least one attempt
failed, and otherwise the generic "no eligible titles" error; and it
never returns an ineligible title. -/
theorem fetchRandomSteamGame_error_spec (oracle : ℕ → Except String SteamGame)
    (featuredIds allIds : List ℕ) (poolChoice idxChoice : ℕ → ℕ)
    (excludeIds recentHistory : List ℕ) :
    (∀ g, fetchRandomSteamGame oracle featuredIds allIds poolChoice idxChoice
        excludeIds recentHistory = .ok g → isEligibleGame g = true) ∧
    (∀ m, fetchRandomSteamGame oracle featuredIds allIds poolChoice idxChoice
        excludeIds recentHistory = .error m →
      (fetchErrors oracle featuredIds allIds poolChoice idxChoice excludeIds
          recentHistory = [] ∧
        m = "No eligible Steam games available at the moment.") ∨
      (fetchErrors oracle featuredIds allIds poolChoice idxChoice excludeIds
          recentHistory ≠ [] ∧
        (fetchErrors oracle featuredIds allIds poolChoice idxChoice excludeIds
          recentHistory).getLast? = some m)) := by
  have hspec := fetchRandomLoop_spec oracle featuredIds allIds poolChoice
    idxChoice MAX_TOTAL_ATTEMPTS 0 (excludeIds ++ recentHistory) none
  constructor
  · intro g hg
    exact hspec.1 g hg
  · intro m hm
    rcases hspec.2 m hm with ⟨herrs, hthrow⟩ | hlast
    · refine Or.inl ⟨herrs, ?_⟩
      simp only [throwLast, Except.error.injEq] at hthrow
      exact hthrow.symm
    · refine Or.inr ⟨?_, hlast⟩
      intro hnil
      rw [show fetchErrors oracle featuredIds allIds poolChoice idxChoice
          excludeIds recentHistory = fetchRandomLoopErrors oracle featuredIds
          allIds poolChoice idxChoice 0 MAX_TOTAL_ATTEMPTS
          (excludeIds ++ recentHistory) from rfl] at hnil
      rw [hnil] at hlast
      simp at hlast

/-- Witness for C5: with both catalogs empty the run exhausts at once,
records no error, and throws the generic error. -/
theorem fetchRandomSteamGame_error_spec_witness :
    (fetchErrors oracleNone [] [] zeroChoice zeroChoice [] [] = [] ∧
      "No eligible Steam games available at the moment."
        = "No eligible Steam games available at the moment.") ∨
    (fetchErrors oracleNone [] [] zeroChoice zeroChoice [] [] ≠ [] ∧
      (fetchErrors oracleNone [] [] zeroChoice zeroChoice [] []).getLast?
        = some "No eligible Steam games available at the moment.") :=
  (fetchRandomSteamGame_error_spec oracleNone [] [] zeroChoice zeroChoice
    [] []).2 "No eligible Steam games available at the moment." rfl

/-- `normalizeStats` touches only `lastPlayedDate` and `lossesToday`, and
the latter only downward (reset to 0 on a date change). -/
theorem normalizeStats_counters (today : String) (s : StatsSnapshot) :
    (normalizeStats today s).totalGuesses = s.totalGuesses ∧
    (normalizeStats today s).correctGames = s.correctGames ∧
    (normalizeStats today s).incorrectGames = s.incorrectGames ∧
    (normalizeStats today s).currentStreak = s.currentStreak ∧
    (normalizeStats today s).bestStreak = s.bestStreak ∧
    (normalizeStats today s).lossesToday ≤ s.lossesToday ∧
    (s.lastPlayedDate = today →
      (normalizeStats today s).lossesToday = s.lossesToday) := by
  unfold normalizeStats
  by_cases h : s.lastPlayedDate = today <;> simp [h]

/-- Componentwise effect of the loss branch of the stats update. -/
theorem updateStats_loss (today : String) (s : StatsSnapshot) :
    (updateStats today .loss s).incorrectGames = s.incorrectGames + 1 ∧
    (updateStats today .loss s).currentStreak = 0 ∧
    (updateStats today .loss s).lossesToday
      = (normalizeStats today s).lossesToday + 1 := by
  obtain ⟨h1, h2, h3, h4, h5, h6, h7⟩ := normalizeStats_counters today s
  unfold updateStats
  simp [h3]

/-- Componentwise effect of the win branch of the stats update. -/
theorem updateStats_win (today : String) (s : StatsSnapshot) :
    (updateStats today .win s).totalGuesses = s.totalGuesses ∧
    (updateStats today .win s).incorrectGames = s.incorrectGames ∧
    (updateStats today .win s).lossesToday
      = (normalizeStats today s).lossesToday ∧
    (updateStats today .win s).correctGames = s.correctGames + 1 ∧
    (updateStats today .win s).currentStreak = s.currentStreak + 1 ∧
    (updateStats today .win s).bestStreak
      = max s.bestStreak (s.currentStreak + 1) ∧
    (updateStats today .win s).lastPlayedDate = today := by
  obtain ⟨h1, h2, h3, h4, h5, h6, h7⟩ := normalizeStats_counters today s
  unfold updateStats
  simp [h1, h2, h3, h4, h5]

/-- `fetchGameStep` never touches the stats snapshot. -/
theorem fetchGameStep_stats (limitReached : Bool) (v : ViewerState) :
    ((fetchGameStep limitReached v).1).stats = v.stats := by
  unfold fetchGameStep
  by_cases h : v.statsLoaded = false <;> cases limitReached <;> simp [h]

/-- With stats loaded and the captured limit flag false, `fetchGameStep`
issues the request with the 15 most recent identifiers. -/
theorem fetchGameStep_request (v : ViewerState) (h : v.statsLoaded = true) :
    (fetchGameStep false v).2 = some (v.recentAppIds.take 15) := by
  unfold fetchGameStep
  simp [h]

/-- Claim C6: round finalization is idempotent — a second invocation of
`finalizeGame` (win or loss, any day) on an already-resolved round is the
identity, the `gameResolvedRef` latch being checked before any Stats
Snapshot counter is mutated; in particular every counter is unchanged
after the first invocation. -/
theorem finalizeGame_idempotent (t1 t2 : String) (r1 r2 : GameResult)
    (v : ViewerState) :
    finalizeGame t2 r2 (finalizeGame t1 r1 v) = finalizeGame t1 r1 v ∧
    (v.gameResolvedRef = true → finalizeGame t1 r1 v = v) := by
  constructor
  · by_cases h : v.gameResolvedRef <;> simp [finalizeGame, h]
  · intro h
    simp [finalizeGame, h]

/-- Witness for C6: finalizing an already-resolved round is a no-op. -/
theorem finalizeGame_idempotent_witness :
    finalizeGame "2024-01-02" GameResult.win resolvedViewer
      = resolvedViewer :=
  (finalizeGame_idempotent "2024-01-02" "2024-01-03" GameResult.win
    GameResult.loss resolvedViewer).2 rfl

/-- Claim C7: with stats loaded, dev mode off and the day-scoped loss
counter (for the current date) at or above the cap, a new-round request
short-circuits to the error state with the fixed message, keeps every
other component of the state (only the round status changes, the
previous game is kept and the stats are untouched) and issues no
network request (`none`). -/
theorem fetchGame_daily_limit (today : String) (v : ViewerState)
    (hload : v.statsLoaded = true)
    (hdate : v.stats.lastPlayedDate = today)
    (hcap : DAILY_LOSS_LIMIT ≤ v.stats.lossesToday) :
    fetchGame false v
      = ({ v with state := .error (stateGame v.state) DAILY_LIMIT_MESSAGE },
          none) := by
  unfold fetchGame fetchGameStep dailyLossLimitReached
  simp [hload, hcap]

/-- Witness for C7 at a viewer whose loss counter sits at the cap. -/
theorem fetchGame_daily_limit_witness :
    fetchGame false limitViewer
      = ({ limitViewer with
            state := .error (stateGame limitViewer.state)
              DAILY_LIMIT_MESSAGE },
          none) :=
  fetchGame_daily_limit "2024-01-01" limitViewer rfl rfl (by decide)

/-- Claim C8: abandoning an active unresolved round via `handleNewGame`
first synthesizes a loss — incorrect-games counter incremented, current
streak reset to 0, day-scoped loss counter incremented (on top of the
date normalization) — before the new fetch is issued; an
already-resolved round triggers no stats change at all. -/
theorem handleNewGame_abandon_loss (today : String) (isDevMode : Bool)
    (v : ViewerState) (g : SteamGame)
    (hload : v.statsLoaded = true) (hstate : v.state = .idle g)
    (hres : v.gameResolved = false) (href : v.gameResolvedRef = false) :
    ((handleNewGame today isDevMode v).1.stats.incorrectGames
        = v.stats.incorrectGames + 1) ∧
    ((handleNewGame today isDevMode v).1.stats.currentStreak = 0) ∧
    ((handleNewGame today isDevMode v).1.stats.lossesToday
        = (normalizeStats today v.stats).lossesToday + 1) ∧
    (dailyLossLimitReached isDevMode v.stats = false →
      (handleNewGame today isDevMode v).2
        = some (v.recentAppIds.take 15)) ∧
    (∀ w : ViewerState, w.statsLoaded = true → w.gameResolved = true →
      (handleNewGame today isDevMode w).1.stats = w.stats) := by
  have hact : isActiveUnresolved v = true := by
    unfold isActiveUnresolved
    rw [hstate]
    simp [hres]
  have hfin : finalizeGame today .loss v
      = { v with
          gameResolvedRef := true,
          gameResolved := true,
          stats := updateStats today .loss v.stats } := by
    unfold finalizeGame
    rw [href]
    simp
  have hmain : handleNewGame today isDevMode v
      = fetchGameStep (dailyLossLimitReached isDevMode v.stats)
          (finalizeGame today .loss v) := by
    unfold handleNewGame
    simp [hload, hact]
  obtain ⟨hu1, hu2, hu3⟩ := updateStats_loss today v.stats
  refine ⟨?_, ?_, ?_, ?_, ?_⟩
  · rw [hmain, fetchGameStep_stats, hfin]
    exact hu1
  · rw [hmain, fetchGameStep_stats, hfin]
    exact hu2
  · rw [hmain, fetchGameStep_stats, hfin]
    exact hu3
  · intro hlim
    rw [hmain, hlim, fetchGameStep_request _ (by rw [hfin]; exact hload)]
    rw [hfin]
  · intro w hwload hwres
    have hwact : isActiveUnresolved w = false := by
      unfold isActiveUnresolved
      cases hw : w.state <;> simp [hwres]
    unfold handleNewGame
    simp [hwload, hwact, fetchGameStep_stats]

/-- Witness for C8: abandoning the active sample round bumps the
incorrect-games counter. -/
theorem handleNewGame_abandon_loss_witness :
    (handleNewGame "2024-01-01" false activeViewer).1.stats.incorrectGames
      = activeViewer.stats.incorrectGames + 1 :=
  (handleNewGame_abandon_loss "2024-01-01" false activeViewer witnessGame
    rfl rfl rfl rfl).1

/-- Counterexample to C10 as stated: finalizing a win while the stored
`lastPlayedDate` is stale resets `lossesToday` (here from 2 to 0), so a
win can mutate `lossesToday`. -/
theorem finalizeGame_win_frame_counterexample :
    (finalizeGame "2024-01-02" GameResult.win staleViewer).stats.lossesToday
        = 0 ∧
    staleViewer.stats.lossesToday = 2 ∧
    (finalizeGame "2024-01-02" GameResult.win staleViewer).stats.lossesToday
      ≠ staleViewer.stats.lossesToday := by
  refine ⟨by decide, rfl, by decide⟩

/-- Claim C10, amended: finalizing a win leaves `totalGuesses` and
`incorrectGames` unchanged, never increases `lossesToday` (it changes it
only via the day-rollover normalization, which resets it to 0; on a
same-day win it is unchanged), updates `correctGames`, `currentStreak`,
`bestStreak` and `lastPlayedDate`, and therefore can never switch the
daily loss limiter on: only losses count toward the daily cap. -/
theorem finalizeGame_win_frame (today : String) (v : ViewerState)
    (href : v.gameResolvedRef = false) :
    ((finalizeGame today .win v).stats.totalGuesses
        = v.stats.totalGuesses) ∧
    ((finalizeGame today .win v).stats.incorrectGames
        = v.stats.incorrectGames) ∧
    ((finalizeGame today .win v).stats.lossesToday
        ≤ v.stats.lossesToday) ∧
    (v.stats.lastPlayedDate = today →
      (finalizeGame today .win v).stats.lossesToday
        = v.stats.lossesToday) ∧
    ((finalizeGame today .win v).stats.correctGames
        = v.stats.correctGames + 1) ∧
    ((finalizeGame today .win v).stats.currentStreak
        = v.stats.currentStreak + 1) ∧
    ((finalizeGame today .win v).stats.bestStreak
        = max v.stats.bestStreak (v.stats.currentStreak + 1)) ∧
    ((finalizeGame today .win v).stats.lastPlayedDate = today) ∧
    (∀ dev, dailyLossLimitReached dev (finalizeGame today .win v).stats
        = true →
      dailyLossLimitReached dev v.stats = true) := by
  have hfin : finalizeGame today .win v
      = { v with
          gameResolvedRef := true,
          gameResolved := true,
          stats := updateStats today .win v.stats } := by
    unfold finalizeGame
    rw [href]
    simp
  obtain ⟨hw1, hw2, hw3, hw4, hw5, hw6, hw7⟩ := updateStats_win today v.stats
  obtain ⟨_, _, _, _, _, hn6, hn7⟩ := normalizeStats_counters today v.stats
  have hle : (finalizeGame today .win v).stats.lossesToday
      ≤ v.stats.lossesToday := by
    rw [hfin]
    simp only
    rw [hw3]
    exact hn6
  refine ⟨?_, ?_, hle, ?_, ?_, ?_, ?_, ?_, ?_⟩
  · rw [hfin]; exact hw1
  · rw [hfin]; exact hw2
  · intro hdate
    rw [hfin]
    simp only
    rw [hw3]
    exact hn7 hdate
  · rw [hfin]; exact hw4
  · rw [hfin]; exact hw5
  · rw [hfin]; exact hw6
  · rw [hfin]; exact hw7
  · intro dev hd
    unfold dailyLossLimitReached at hd ⊢
    rw [Bool.and_eq_true, decide_eq_true_eq] at hd
    rw [Bool.and_eq_true, decide_eq_true_eq]
    exact ⟨hd.1, le_trans hd.2 hle⟩

/-- Witness for C10 (amended): a same-day win leaves `lossesToday`
untouched. -/
theorem finalizeGame_win_frame_witness :
    (finalizeGame "2024-01-01" GameResult.win activeViewer).stats.lossesToday
      = activeViewer.stats.lossesToday :=
  (finalizeGame_win_frame "2024-01-01" activeViewer rfl).2.2.2.1 rfl

/-- Claim C9 evaluated on the code: the endpoint never threads the
caller's `exclude` query into candidate selection — with catalogs `[5]`,
an empty server-side history and the query excluding exactly identifier
5, the route still serves the excluded title 5 — while a failed
resolution does yield the `{ error }` body with HTTP status 502. -/
theorem routeGET_ignores_exclude :
    routeGET oracle5 [5] [5] zeroChoice zeroChoice [] [5]
      = (200, RouteBody.game eligibleGame5) ∧
    eligibleGame5.appId ∈ ([5] : List ℕ) ∧
    routeGET oracleNone [] [] zeroChoice zeroChoice [] []
      = (502, RouteBody.error
          "No eligible Steam games available at the moment.") := by
  refine ⟨rfl, by decide, rfl⟩

end Steamcodle
